import Mathlib

/-!
Shallow embedding of the draft-trail server (routes/draftTrails.js,
config/dataStore.js, middleware/auth.js).

Times are integers in milliseconds (seconds for external-token expiry
claims, as in the source).  The JSON file behind the data store is
modelled as a `List DraftTrail` threaded explicitly through every
operation; a handler is a pure function from (now, store, request) to
(response, store).
-/

set_option linter.unnecessarySimpa false

namespace YS

/-- One persisted draft-trail record.  `trailData` is an opaque
client-supplied blob (never interpreted by the server), modelled as a
string.  `isPaid`/`paidAt` are absent (`none`) until the paid route
sets them, mirroring the fields being added to the JSON object only by
`PUT /:referenceCode/paid`. -/
structure DraftTrail where
  referenceCode : String
  userId : String
  userEmail : String
  trailData : String
  status : String
  isPaid : Option Bool
  paidAt : Option Int
  createdAt : Int
  expiresAt : Int
  daysRemaining : Int
deriving DecidableEq, Repr

/-- Milliseconds in a day: `1000 * 60 * 60 * 24`. -/
def msPerDay : Int := 1000 * 60 * 60 * 24

/-- The fixed TTL: `7 * 24 * 60 * 60 * 1000` ms (7 days), from
`router.post('/')`. -/
def ttlMillis : Int := 7 * msPerDay

/-- Ceiling division for integers with a positive divisor, the integer
value of JavaScript `Math.ceil(a / b)` for integral `a` and positive
integral `b`. -/
def ceilDiv (a b : Int) : Int := Int.ediv (a + b - 1) b

/-- `isExpired` from draftTrails.js line 16: `Date.now() > expiresAt`. -/
def isExpired (now expiresAt : Int) : Bool := decide (expiresAt < now)

/-- `getDaysRemaining` from draftTrails.js lines 21-24:
`Math.max(0, Math.ceil((expiresAt - Date.now()) / (1000*60*60*24)))`. -/
def getDaysRemaining (now expiresAt : Int) : Int :=
  max 0 (ceilDiv (expiresAt - now) msPerDay)

/-- `dataStore.getDraftTrail`: `drafts.find(d => d.referenceCode === referenceCode)`. -/
def getDraftTrail (referenceCode : String) (drafts : List DraftTrail) : Option DraftTrail :=
  drafts.find? (fun d => d.referenceCode == referenceCode)

/-- `dataStore.saveDraftTrail`: replace the first record carrying the
same reference code (`findIndex` then assignment), otherwise append
(`push`). -/
def saveDraftTrail (draftData : DraftTrail) : List DraftTrail → List DraftTrail
  | [] => [draftData]
  | d :: ds =>
    if d.referenceCode == draftData.referenceCode then draftData :: ds
    else d :: saveDraftTrail draftData ds

/-- `dataStore.deleteDraftTrail`: `drafts.filter(d => d.referenceCode !== referenceCode)`. -/
def deleteDraftTrail (referenceCode : String) (drafts : List DraftTrail) : List DraftTrail :=
  drafts.filter (fun d => !(d.referenceCode == referenceCode))

/-- Update the first element satisfying `p` (JavaScript
`findIndex` + in-place assignment); `none` when `findIndex` is `-1`. -/
def updateFirst (p : DraftTrail → Bool) (f : DraftTrail → DraftTrail) :
    List DraftTrail → Option (List DraftTrail)
  | [] => none
  | d :: ds =>
    if p d then some (f d :: ds)
    else (updateFirst p f ds).map (d :: ·)

/-- `dataStore.updateDraftStatus`: overwrite `status` of the record at
`findIndex`; `false` (store untouched) when the code is absent. -/
def updateDraftStatus (status referenceCode : String) (drafts : List DraftTrail) :
    Bool × List DraftTrail :=
  match updateFirst (fun d => d.referenceCode == referenceCode)
      (fun d => { d with status := status }) drafts with
  | some ds => (true, ds)
  | none => (false, drafts)

/-- Request body of `POST /api/draft-trails`.  The handler destructures
only `referenceCode`, `userId`, `userEmail`, `trailData`; the remaining
fields model values a client may also send, which the handler never
reads.  `none` is an absent (or `undefined`/`null`) field. -/
structure CreateBody where
  referenceCode : Option String
  userId : Option String
  userEmail : Option String
  trailData : Option String
  status : Option String
  isPaid : Option Bool
  createdAt : Option Int
  expiresAt : Option Int
  daysRemaining : Option Int
deriving DecidableEq, Repr

/-- Response of `POST /api/draft-trails` (the 500 storage-failure branch
is unreachable in the pure model, where the write always succeeds). -/
inductive CreateResult
  | badRequest
  | created (referenceCode userId userEmail : String) (daysRemaining : Int)
deriving DecidableEq, Repr

/-- The keys of the JSON object the create handler sends with status
201 (draftTrails.js lines 71-78). -/
def createSuccessResponseKeys : List String :=
  ["success", "message", "referenceCode", "userId", "userEmail", "daysRemaining"]

/-- `router.post('/')` (draftTrails.js lines 31-83): presence check on
the four destructured fields (`!x` is true for an absent field and for
an empty string; `trailData` is an object in the source, truthy whenever
present), then build the record with server-chosen `status`,
`createdAt`, `expiresAt`, `daysRemaining` and upsert it. -/
def createDraft (now : Int) (drafts : List DraftTrail) (body : CreateBody) :
    CreateResult × List DraftTrail :=
  match body.referenceCode, body.userId, body.userEmail, body.trailData with
  | some rc, some uid, some em, some td =>
    if rc == "" || uid == "" || em == "" then (.badRequest, drafts)
    else
      let expiresAt := now + ttlMillis
      let draftData : DraftTrail :=
        { referenceCode := rc, userId := uid, userEmail := em, trailData := td
          status := "draft", isPaid := none, paidAt := none
          createdAt := now, expiresAt := expiresAt, daysRemaining := 7 }
      (.created rc uid em 7, saveDraftTrail draftData drafts)
  | _, _, _, _ => (.badRequest, drafts)

/-- Response of `GET /api/draft-trails/:referenceCode`. -/
inductive GetResult
  | notFound
  | gone (expiresAt : Int)
  | ok (draft : DraftTrail)
deriving DecidableEq, Repr

/-- `router.get('/:referenceCode')` (draftTrails.js lines 457-516):
404 when absent; 410 **and physical deletion** when present but past
`expiresAt`; otherwise 200 with `daysRemaining` recomputed at read
time. -/
def getByReferenceCode (now : Int) (drafts : List DraftTrail) (referenceCode : String) :
    GetResult × List DraftTrail :=
  match getDraftTrail referenceCode drafts with
  | none => (.notFound, drafts)
  | some draft =>
    if isExpired now draft.expiresAt then
      (.gone draft.expiresAt, deleteDraftTrail referenceCode drafts)
    else
      (.ok { draft with daysRemaining := getDaysRemaining now draft.expiresAt }, drafts)

/-- Response of the authenticated mutation routes (status / paid /
delete).  `serverError` is the 500 branch taken when the second lookup
inside the update fails. -/
inductive MutResult
  | badRequest
  | notFound
  | forbidden
  | serverError
  | ok
deriving DecidableEq, Repr

/-- `router.put('/:referenceCode/status')` (draftTrails.js lines
262-320), after the auth middleware has produced the requester's
email: 400 on missing/empty `status`, 404 on unknown code, 403 on
ownership mismatch, else overwrite the status. -/
def updateStatusHandler (drafts : List DraftTrail) (userEmail referenceCode : String)
    (status : Option String) : MutResult × List DraftTrail :=
  match status with
  | none => (.badRequest, drafts)
  | some s =>
    if s == "" then (.badRequest, drafts)
    else
      match getDraftTrail referenceCode drafts with
      | none => (.notFound, drafts)
      | some draft =>
        if !(draft.userEmail == userEmail) then (.forbidden, drafts)
        else
          match updateDraftStatus s referenceCode drafts with
          | (true, ds) => (.ok, ds)
          | (false, _) => (.serverError, drafts)

/-- `router.put('/:referenceCode/paid')` (draftTrails.js lines 328-403):
400 when `isPaid` is `undefined`/`null`, 404 on unknown code, 403 on
ownership mismatch, else set `isPaid` and `paidAt` (now, or null when
unset) on the record at `findIndex` (second 404 when that index is -1). -/
def updatePaidHandler (now : Int) (drafts : List DraftTrail)
    (userEmail referenceCode : String) (isPaid : Option Bool) :
    MutResult × List DraftTrail :=
  match isPaid with
  | none => (.badRequest, drafts)
  | some b =>
    match getDraftTrail referenceCode drafts with
    | none => (.notFound, drafts)
    | some draft =>
      if !(draft.userEmail == userEmail) then (.forbidden, drafts)
      else
        match updateFirst (fun d => d.referenceCode == referenceCode)
            (fun d => { d with isPaid := some b, paidAt := if b then some now else none })
            drafts with
        | some ds => (.ok, ds)
        | none => (.notFound, drafts)

/-- `router.delete('/:referenceCode')` (draftTrails.js lines 410-450):
404 on unknown code, 403 on ownership mismatch, else remove. -/
def deleteHandler (drafts : List DraftTrail) (userEmail referenceCode : String) :
    MutResult × List DraftTrail :=
  match getDraftTrail referenceCode drafts with
  | none => (.notFound, drafts)
  | some draft =>
    if !(draft.userEmail == userEmail) then (.forbidden, drafts)
    else (.ok, deleteDraftTrail referenceCode drafts)

/-! ## Token layer (middleware/auth.js)

Token text is modelled as `List Char`, so that JavaScript
`String.prototype.split` is an executable structural recursion.  The
base64 transport encoding of the self-signed token is a bijection on
its payload and is modelled away: `verifyToken` receives the already
decoded `subject:timestamp:signature` text.  The keyed hash
(`crypto.createHmac('sha256', secret)`) and the base64url + JSON
decoding of an external token's claims segment are opaque to the
control flow under verification and are passed in as function
parameters. -/

/-- Character strings as lists, the unit `split` operates on. -/
abbrev Str := List Char

/-- JavaScript `s.split(sep)` for a single-character separator:
`splitOnChar c s` never returns `[]`, and returns `[[]]` on the empty
string, as `"".split(':')` returns `[""]`. -/
def splitOnChar (sep : Char) : Str → List Str
  | [] => [[]]
  | c :: rest =>
    match splitOnChar sep rest with
    | [] => if c == sep then [[], []] else [[c]]
    | h :: t => if c == sep then [] :: h :: t else (c :: h) :: t

/-- The signed data of a self-signed token: `` `${userId}:${timestamp}` ``. -/
def tokenData (userId : Str) (timestampMillis : Int) : Str :=
  userId ++ ':' :: (toString timestampMillis).toList

/-- `generateToken` (auth.js lines 12-26), before the base64 transport
step: `` `${data}:${signature}` `` with `signature = hmac secret data`. -/
def generateToken (hmac : Str → Str → Str) (secret userId : Str)
    (timestampMillis : Int) : Str :=
  let data := tokenData userId timestampMillis
  data ++ ':' :: hmac secret data

/-- Outcome of `verifyToken`.  `invalidFormat` is the explicit
`'Invalid token format'` rejection; `signatureInvalid` is
`'Token signature invalid'`; `verifyFailed` is the catch-block
`'Token verification failed'`, reached when the destructured
`signature` is `undefined` and `signature.substring` throws. -/
inductive VerifyResult
  | invalidFormat
  | signatureInvalid
  | verifyFailed
  | valid (userId timestamp : Str)
deriving DecidableEq, Repr

/-- `verifyToken` (auth.js lines 31-80) on the decoded token text:
split on `':'`, destructure the first three parts (fewer than three
parts leaves `signature` undefined, so the debug `substring` call
throws into the catch block), reject empty parts as a format error,
then recompute the keyed hash over `userId:timestamp` and compare it
with the carried signature. -/
def verifyToken (hmac : Str → Str → Str) (secret decoded : Str) : VerifyResult :=
  match splitOnChar ':' decoded with
  | userId :: timestamp :: signature :: _ =>
    if userId == [] || timestamp == [] || signature == [] then .invalidFormat
    else
      let expected := hmac secret (userId ++ ':' :: timestamp)
      if signature == expected then .valid userId timestamp
      else .signatureInvalid
  | _ => .verifyFailed

/-- The claims object decoded from an external token's middle segment.
A field is `none` when the property is absent; `some []` models a
present-but-empty string, which is falsy in JavaScript.  Numeric claim
values are modelled as integers within the date range `toISOString`
can render. -/
structure JwtClaims where
  sub : Option Str
  email : Option Str
  name : Option Str
  iat : Option Int
  exp : Option Int
deriving DecidableEq, Repr

/-- Outcome of `extractUserFromToken`.  `extractFailed` is the outer
catch block (`'Failed to extract user from token'`), reached when the
debug logging of the decoded claims throws. -/
inductive ExtractResult
  | notAJwt
  | payloadDecodeFailed
  | extractFailed
  | tokenExpired
  | missingUidOrEmail
  | valid (userId email : Str) (name : Option Str)
deriving DecidableEq, Repr

/-- The JavaScript truthiness test `decodedPayload.exp && decodedPayload.exp < now`:
an absent `exp` — and also an `exp` equal to `0`, which is falsy — skips
the expiry rejection. -/
def expPresentAndPast (exp : Option Int) (nowSeconds : Int) : Bool :=
  match exp with
  | some e => !(e == 0) && decide (e < nowSeconds)
  | none => false

/-- `extractUserFromToken` (auth.js lines 86-151): require exactly
three dot-separated segments, decode the middle segment as claims
(`decodePayload` models base64url padding + `JSON.parse`; `none` is the
`'Failed to decode token payload'` branch).  The debug logs at lines
118-119 render `new Date(decodedPayload.iat * 1000).toISOString()` and
the same for `exp`; when either claim is absent, `undefined * 1000` is
`NaN` and `toISOString` throws a `RangeError` into the outer catch, so
claims lacking `iat` or `exp` are rejected as `extractFailed`.  With
both present, a truthy past `exp` is rejected, then truthy `sub` and
`email` are required.  The first and third segments are never inspected
beyond the count. -/
def extractUserFromToken (decodePayload : Str → Option JwtClaims)
    (nowSeconds : Int) (token : Str) : ExtractResult :=
  let parts := splitOnChar '.' token
  if parts.length != 3 then .notAJwt
  else
    match decodePayload (parts.getD 1 []) with
    | none => .payloadDecodeFailed
    | some payload =>
      match payload.iat, payload.exp with
      | some _, some e =>
        if expPresentAndPast (some e) nowSeconds then .tokenExpired
        else
          match payload.sub, payload.email with
          | some u, some em =>
            if u == [] || em == [] then .missingUidOrEmail
            else .valid u em payload.name
          | _, _ => .missingUidOrEmail
      | _, _ => .extractFailed

/-- `true` exactly on the accepting outcome of `extractUserFromToken`. -/
def ExtractResult.isValid : ExtractResult → Bool
  | .valid _ _ _ => true
  | _ => false

/-! ## Router (express registration order in routes/draftTrails.js)

Express matches a request against the registered patterns in
registration order and dispatches to the first match; a `:param`
segment matches any single path segment. -/

/-- One segment of a route pattern: a fixed literal or a `:param`. -/
inductive RouteSeg
  | lit (s : String)
  | param (name : String)
deriving DecidableEq, Repr

/-- Whether one pattern segment matches one path segment. -/
def segMatches : RouteSeg → String → Bool
  | .lit l, s => l == s
  | .param _, _ => true

/-- Whether a whole pattern matches a whole path (segment lists of the
same length, segmentwise match). -/
def pathMatches : List RouteSeg → List String → Bool
  | [], [] => true
  | p :: ps, s :: ss => segMatches p s && pathMatches ps ss
  | _, _ => false

/-- The GET handlers registered on the draft-trails router. -/
inductive GetHandlerId
  | listAll
  | myDrafts
  | userMissingParam
  | userById
  | byReferenceCode
deriving DecidableEq, Repr

/-- The GET routes of routes/draftTrails.js in registration order:
`'/'`, `'/my-drafts'`, `'/user'`, `'/user/:userId'`,
`'/:referenceCode'`. -/
def getRoutes : List (List RouteSeg × GetHandlerId) :=
  [ ([], .listAll)
  , ([.lit "my-drafts"], .myDrafts)
  , ([.lit "user"], .userMissingParam)
  , ([.lit "user", .param "userId"], .userById)
  , ([.param "referenceCode"], .byReferenceCode) ]

/-- First-match dispatch over the registered GET routes, as express
performs it. -/
def dispatchGet (path : List String) : Option GetHandlerId :=
  (getRoutes.find? (fun r => pathMatches r.1 path)).map (fun r => r.2)

/-! ## Store lemmas -/

/-- Looking up a code right after upserting a record with that code
returns exactly that record. -/
theorem getDraftTrail_saveDraftTrail (d : DraftTrail) (ds : List DraftTrail) :
    getDraftTrail d.referenceCode (saveDraftTrail d ds) = some d := by
  induction ds with
  | nil => simp [saveDraftTrail, getDraftTrail, List.find?]
  | cons d0 ds ih =>
    by_cases h : d0.referenceCode = d.referenceCode
    · simp [saveDraftTrail, getDraftTrail, List.find?, h]
    · have hbeq : (d0.referenceCode == d.referenceCode) = false := by simp [h]
      simpa [saveDraftTrail, getDraftTrail, List.find?, hbeq] using ih

/-- Looking up a code right after deleting it finds nothing. -/
theorem getDraftTrail_deleteDraftTrail (referenceCode : String) (ds : List DraftTrail) :
    getDraftTrail referenceCode (deleteDraftTrail referenceCode ds) = none := by
  induction ds with
  | nil => rfl
  | cons d0 ds ih =>
    by_cases h : d0.referenceCode = referenceCode
    · simpa [deleteDraftTrail, List.filter_cons, h] using ih
    · simp only [deleteDraftTrail, List.filter_cons, beq_iff_eq, h] at ih ⊢
      simpa [getDraftTrail, List.find?, h] using ih

/-- Deletion is idempotent on the store. -/
theorem deleteDraftTrail_deleteDraftTrail (referenceCode : String) (ds : List DraftTrail) :
    deleteDraftTrail referenceCode (deleteDraftTrail referenceCode ds)
      = deleteDraftTrail referenceCode ds := by
  induction ds with
  | nil => rfl
  | cons d0 ds ih =>
    by_cases h : d0.referenceCode = referenceCode
    · simpa [deleteDraftTrail, List.filter_cons, h] using ih
    · simpa [deleteDraftTrail, List.filter_cons, h] using ih

/-- Upserting a code that is already present keeps the store size. -/
theorem length_saveDraftTrail (d : DraftTrail) (ds : List DraftTrail)
    (h : ∃ d0 ∈ ds, d0.referenceCode = d.referenceCode) :
    (saveDraftTrail d ds).length = ds.length := by
  induction ds with
  | nil => simp at h
  | cons d0 ds ih =>
    by_cases h0 : d0.referenceCode = d.referenceCode
    · simp [saveDraftTrail, h0]
    · obtain ⟨d1, hmem, hcode⟩ := h
      rcases List.mem_cons.mp hmem with rfl | hmem
      · exact absurd hcode h0
      · simp only [saveDraftTrail, beq_iff_eq, h0, if_false, List.length_cons]
        exact congrArg (· + 1) (ih ⟨d1, hmem, hcode⟩)

/-! ## Claim theorems -/

/-- C1: a GET request whose path tail is the literal segment
`my-drafts` is dispatched by the registration-ordered router to the
owner-scoped listing handler, never to the get-by-reference-code
handler — even though the parameterized `/:referenceCode` pattern also
matches that path. -/
theorem c1_myDrafts_route_precedence :
    dispatchGet ["my-drafts"] = some GetHandlerId.myDrafts ∧
    GetHandlerId.myDrafts ≠ GetHandlerId.byReferenceCode ∧
    pathMatches [RouteSeg.param "referenceCode"] ["my-drafts"] = true := by
  decide

/-- C8 (code evaluated at the failing input): a valid create request
succeeds with a 201 response whose JSON object carries only `success`,
`message`, `referenceCode`, `userId`, `userEmail` and `daysRemaining` —
no `token` field is issued, although the repository's own
TOKEN_AUTHENTICATION.md documents a `token` in this response. -/
theorem c8_create_issues_no_token :
    (createDraft 0 []
      { referenceCode := some "REF123456", userId := some "user_001"
        userEmail := some "user@example.com", trailData := some "trail"
        status := none, isPaid := none, createdAt := none
        expiresAt := none, daysRemaining := none }).1
      = CreateResult.created "REF123456" "user_001" "user@example.com" 7 ∧
    "token" ∉ createSuccessResponseKeys := by
  decide

/-- C5: upserting a record whose reference code already occurs in the
store replaces rather than duplicates — the store size is unchanged and
lookup by that code now returns the new record. -/
theorem c5_create_upserts (drafts : List DraftTrail) (d : DraftTrail)
    (h : ∃ d0 ∈ drafts, d0.referenceCode = d.referenceCode) :
    (saveDraftTrail d drafts).length = drafts.length ∧
    getDraftTrail d.referenceCode (saveDraftTrail d drafts) = some d :=
  ⟨length_saveDraftTrail d drafts h, getDraftTrail_saveDraftTrail d drafts⟩

/-- A concrete record used by the C5 witness. -/
def w5Old : DraftTrail :=
  { referenceCode := "R1", userId := "u1", userEmail := "a@x.com"
    trailData := "t1", status := "draft", isPaid := none, paidAt := none
    createdAt := 0, expiresAt := 604800000, daysRemaining := 7 }

/-- A replacement record with the same reference code, for the C5 witness. -/
def w5New : DraftTrail :=
  { referenceCode := "R1", userId := "u1", userEmail := "a@x.com"
    trailData := "t2", status := "payment_completed", isPaid := none, paidAt := none
    createdAt := 5, expiresAt := 604800005, daysRemaining := 7 }

/-- C5 witness: the upsert theorem applied to a one-record store that
already holds the reference code. -/
theorem c5_create_upserts_witness :
    (saveDraftTrail w5New [w5Old]).length = [w5Old].length ∧
    getDraftTrail w5New.referenceCode (saveDraftTrail w5New [w5Old]) = some w5New :=
  c5_create_upserts [w5Old] w5New ⟨w5Old, by decide, by decide⟩

/-- C9: deletion is idempotent — twice leaves the same store as once,
both for the raw store operation and for the authenticated DELETE
handler — and the handler's response reveals whether a record with the
code existed before the call (404 exactly when it did not). -/
theorem c9_delete_idempotent (drafts : List DraftTrail) (userEmail referenceCode : String) :
    deleteDraftTrail referenceCode (deleteDraftTrail referenceCode drafts)
      = deleteDraftTrail referenceCode drafts ∧
    (deleteHandler (deleteHandler drafts userEmail referenceCode).2
        userEmail referenceCode).2
      = (deleteHandler drafts userEmail referenceCode).2 ∧
    ((deleteHandler drafts userEmail referenceCode).1 = MutResult.notFound ↔
      getDraftTrail referenceCode drafts = none) := by
  refine ⟨deleteDraftTrail_deleteDraftTrail _ _, ?_, ?_⟩
  · cases hfind : getDraftTrail referenceCode drafts with
    | none => simp [deleteHandler, hfind]
    | some d =>
      by_cases how : d.userEmail = userEmail
      · simp [deleteHandler, hfind, how, getDraftTrail_deleteDraftTrail,
          deleteDraftTrail_deleteDraftTrail]
      · simp [deleteHandler, hfind, how]
  · cases hfind : getDraftTrail referenceCode drafts with
    | none => simp [deleteHandler, hfind]
    | some d =>
      by_cases how : d.userEmail = userEmail
      · simp [deleteHandler, hfind, how]
      · simp [deleteHandler, hfind, how]

/-- C3: a status update, paid update, or delete authenticated as a
non-owner is rejected with 403 and leaves the whole store unchanged. -/
theorem c3_ownership_isolation (drafts : List DraftTrail)
    (emailA referenceCode s : String) (b : Bool) (now : Int) (d : DraftTrail)
    (hfound : getDraftTrail referenceCode drafts = some d)
    (howner : d.userEmail ≠ emailA)
    (hs : s ≠ "") :
    updateStatusHandler drafts emailA referenceCode (some s) = (.forbidden, drafts) ∧
    updatePaidHandler now drafts emailA referenceCode (some b) = (.forbidden, drafts) ∧
    deleteHandler drafts emailA referenceCode = (.forbidden, drafts) := by
  refine ⟨?_, ?_, ?_⟩
  · simp [updateStatusHandler, hfound, hs, howner]
  · simp [updatePaidHandler, hfound, howner]
  · simp [deleteHandler, hfound, howner]

/-- A record owned by `b@x.com`, used by the C3 witness. -/
def w3Draft : DraftTrail :=
  { referenceCode := "R2", userId := "u2", userEmail := "b@x.com"
    trailData := "t", status := "draft", isPaid := none, paidAt := none
    createdAt := 0, expiresAt := 604800000, daysRemaining := 7 }

/-- C3 witness: the ownership-isolation theorem applied to a one-record
store owned by `b@x.com` with requests authenticated as `a@x.com`. -/
theorem c3_ownership_isolation_witness :
    updateStatusHandler [w3Draft] "a@x.com" "R2" (some "submitted")
      = (.forbidden, [w3Draft]) ∧
    updatePaidHandler 9 [w3Draft] "a@x.com" "R2" (some true)
      = (.forbidden, [w3Draft]) ∧
    deleteHandler [w3Draft] "a@x.com" "R2" = (.forbidden, [w3Draft]) :=
  c3_ownership_isolation [w3Draft] "a@x.com" "R2" "submitted" true 9 w3Draft
    (by decide) (by decide) (by decide)

/-- One day is a whole number of milliseconds, so one remaining
millisecond still rounds up to one remaining day. -/
theorem ceilDiv_one_msPerDay : ceilDiv 1 msPerDay = 1 := by decide

/-- A create request with all four required fields present and truthy
takes the success path: its response and the upserted record, with the
server-chosen `status`, `createdAt`, `expiresAt` and `daysRemaining`. -/
theorem createDraft_eq (now : Int) (drafts : List DraftTrail) (body : CreateBody)
    (rc uid em td : String)
    (hrc : body.referenceCode = some rc) (hrcne : rc ≠ "")
    (huid : body.userId = some uid) (huidne : uid ≠ "")
    (hem : body.userEmail = some em) (hemne : em ≠ "")
    (htd : body.trailData = some td) :
    createDraft now drafts body =
      (.created rc uid em 7,
       saveDraftTrail
         { referenceCode := rc, userId := uid, userEmail := em, trailData := td
           status := "draft", isPaid := none, paidAt := none
           createdAt := now, expiresAt := now + ttlMillis, daysRemaining := 7 }
         drafts) := by
  simp [createDraft, hrc, huid, hem, htd, hrcne, huidne, hemne]

/-- C2: a stored record whose `expiresAt` has passed is answered with
410 Gone (a result distinct by constructor from 404 Not Found) and is
physically deleted, so that a later Get at any time answers 404; and a
record created at time `T` (fixed TTL `ttlMillis`) is still served at
`T + ttlMillis - 1` (with one day remaining) and is Gone at
`T + ttlMillis + 1`. -/
theorem c2_expiry_boundary (drafts drafts0 : List DraftTrail) (d : DraftTrail)
    (now1 now2 T : Int) (body : CreateBody) (rc uid em td : String)
    (hfound : getDraftTrail d.referenceCode drafts = some d)
    (hpast : d.expiresAt < now1)
    (hrc : body.referenceCode = some rc) (hrcne : rc ≠ "")
    (huid : body.userId = some uid) (huidne : uid ≠ "")
    (hem : body.userEmail = some em) (hemne : em ≠ "")
    (htd : body.trailData = some td) :
    getByReferenceCode now1 drafts d.referenceCode
      = (.gone d.expiresAt, deleteDraftTrail d.referenceCode drafts) ∧
    (getByReferenceCode now2 (deleteDraftTrail d.referenceCode drafts)
        d.referenceCode).1 = .notFound ∧
    (getByReferenceCode (T + ttlMillis - 1) (createDraft T drafts0 body).2 rc).1
      = .ok { referenceCode := rc, userId := uid, userEmail := em, trailData := td
              status := "draft", isPaid := none, paidAt := none
              createdAt := T, expiresAt := T + ttlMillis, daysRemaining := 1 } ∧
    (getByReferenceCode (T + ttlMillis + 1) (createDraft T drafts0 body).2 rc).1
      = .gone (T + ttlMillis) := by
  have hsave := createDraft_eq T drafts0 body rc uid em td hrc hrcne huid huidne
    hem hemne htd
  have hget := getDraftTrail_saveDraftTrail
    { referenceCode := rc, userId := uid, userEmail := em, trailData := td
      status := "draft", isPaid := none, paidAt := none
      createdAt := T, expiresAt := T + ttlMillis, daysRemaining := 7 } drafts0
  refine ⟨?_, ?_, ?_, ?_⟩
  · simp [getByReferenceCode, hfound, isExpired, hpast]
  · simp [getByReferenceCode, getDraftTrail_deleteDraftTrail]
  · have hexp : isExpired (T + ttlMillis - 1) (T + ttlMillis) = false := by
      simp [isExpired]
    have hdays : getDaysRemaining (T + ttlMillis - 1) (T + ttlMillis) = 1 := by
      have harg : T + ttlMillis - (T + ttlMillis - 1) = 1 := by ring
      simp [getDaysRemaining, harg, ceilDiv_one_msPerDay]
    simp [hsave, getByReferenceCode, hget, hexp, hdays]
  · have hexp : isExpired (T + ttlMillis + 1) (T + ttlMillis) = true := by
      simp [isExpired]
    simp [hsave, getByReferenceCode, hget, hexp]

/-- Concrete expired record for the C2 witness: expired at 100, read at 101. -/
def w2Draft : DraftTrail :=
  { referenceCode := "R4", userId := "u4", userEmail := "d@x.com"
    trailData := "t", status := "draft", isPaid := none, paidAt := none
    createdAt := 0, expiresAt := 100, daysRemaining := 7 }

/-- Concrete create body for the C2 witness. -/
def w2Body : CreateBody :=
  { referenceCode := some "R5", userId := some "u5", userEmail := some "e@x.com"
    trailData := some "t5", status := none, isPaid := none, createdAt := none
    expiresAt := none, daysRemaining := none }

/-- C2 witness: the boundary theorem applied to a store holding one
record that expired at 100, read at 101, and to a concrete record
created at `T = 0`. -/
theorem c2_expiry_boundary_witness :
    getByReferenceCode 101 [w2Draft] w2Draft.referenceCode
      = (.gone w2Draft.expiresAt, deleteDraftTrail w2Draft.referenceCode [w2Draft]) ∧
    (getByReferenceCode 0 (deleteDraftTrail w2Draft.referenceCode [w2Draft])
        w2Draft.referenceCode).1 = .notFound ∧
    (getByReferenceCode (0 + ttlMillis - 1) (createDraft 0 [] w2Body).2 "R5").1
      = .ok { referenceCode := "R5", userId := "u5", userEmail := "e@x.com"
              trailData := "t5", status := "draft", isPaid := none, paidAt := none
              createdAt := 0, expiresAt := 0 + ttlMillis, daysRemaining := 1 } ∧
    (getByReferenceCode (0 + ttlMillis + 1) (createDraft 0 [] w2Body).2 "R5").1
      = .gone (0 + ttlMillis) :=
  c2_expiry_boundary [w2Draft] [] w2Draft 101 0 0 w2Body "R5" "u5" "e@x.com" "t5"
    (by decide) (by decide) (by decide) (by decide) (by decide) (by decide)
    (by decide) (by decide) (by decide)

/-- C4: reading back a freshly created reference code before its expiry
returns the stored record unchanged in every field except
`daysRemaining`, which is recomputed at read time as
`max 0 (ceil ((expiresAt - now) / msPerDay))`, and does not modify the
store. -/
theorem c4_create_get_round_trip (T now : Int) (drafts : List DraftTrail)
    (body : CreateBody) (rc uid em td : String)
    (hrc : body.referenceCode = some rc) (hrcne : rc ≠ "")
    (huid : body.userId = some uid) (huidne : uid ≠ "")
    (hem : body.userEmail = some em) (hemne : em ≠ "")
    (htd : body.trailData = some td)
    (hnotexp : ¬ T + ttlMillis < now) :
    getByReferenceCode now (createDraft T drafts body).2 rc
      = (.ok { referenceCode := rc, userId := uid, userEmail := em, trailData := td
               status := "draft", isPaid := none, paidAt := none
               createdAt := T, expiresAt := T + ttlMillis
               daysRemaining := max 0 (ceilDiv (T + ttlMillis - now) msPerDay) },
         (createDraft T drafts body).2) := by
  have hsave := createDraft_eq T drafts body rc uid em td hrc hrcne huid huidne
    hem hemne htd
  have hget := getDraftTrail_saveDraftTrail
    { referenceCode := rc, userId := uid, userEmail := em, trailData := td
      status := "draft", isPaid := none, paidAt := none
      createdAt := T, expiresAt := T + ttlMillis, daysRemaining := 7 } drafts
  have hexp : isExpired now (T + ttlMillis) = false := by
    simp [isExpired]; omega
  simp [hsave, getByReferenceCode, hget, hexp, getDaysRemaining]

/-- Concrete create body for the C4 witness, carrying client-supplied
values for the server-owned fields. -/
def w4Body : CreateBody :=
  { referenceCode := some "R6", userId := some "u6", userEmail := some "f@x.com"
    trailData := some "t6", status := some "payment_completed", isPaid := some true
    createdAt := some 123, expiresAt := some 456, daysRemaining := some 99 }

/-- C4 witness: the round-trip theorem applied to a creation at `T = 0`
read back at `now = 10`. -/
theorem c4_create_get_round_trip_witness :
    getByReferenceCode 10 (createDraft 0 [] w4Body).2 "R6"
      = (.ok { referenceCode := "R6", userId := "u6", userEmail := "f@x.com"
               trailData := "t6", status := "draft", isPaid := none, paidAt := none
               createdAt := 0, expiresAt := 0 + ttlMillis
               daysRemaining := max 0 (ceilDiv (0 + ttlMillis - 10) msPerDay) },
         (createDraft 0 [] w4Body).2) :=
  c4_create_get_round_trip 0 10 [] w4Body "R6" "u6" "f@x.com" "t6"
    (by decide) (by decide) (by decide) (by decide) (by decide) (by decide)
    (by decide) (by decide)

/-- C10: the stored record of every successful create has the literal
status `draft`, `createdAt` equal to the server clock, `expiresAt`
equal to `now + 7 days`, no paid fields, and server-set
`daysRemaining = 7`; and the whole outcome of create is unchanged under
arbitrary client-supplied `status`, `isPaid`, `createdAt`, `expiresAt`
and `daysRemaining` body fields (any two bodies agreeing on the four
read fields produce identical results). -/
theorem c10_server_owned_fields (T : Int) (drafts : List DraftTrail)
    (body body2 : CreateBody) (rc uid em td : String)
    (hrc : body.referenceCode = some rc) (hrcne : rc ≠ "")
    (huid : body.userId = some uid) (huidne : uid ≠ "")
    (hem : body.userEmail = some em) (hemne : em ≠ "")
    (htd : body.trailData = some td)
    (h2rc : body2.referenceCode = body.referenceCode)
    (h2uid : body2.userId = body.userId)
    (h2em : body2.userEmail = body.userEmail)
    (h2td : body2.trailData = body.trailData) :
    createDraft T drafts body2 = createDraft T drafts body ∧
    getDraftTrail rc (createDraft T drafts body).2
      = some { referenceCode := rc, userId := uid, userEmail := em, trailData := td
               status := "draft", isPaid := none, paidAt := none
               createdAt := T, expiresAt := T + ttlMillis, daysRemaining := 7 } := by
  have hsave := createDraft_eq T drafts body rc uid em td hrc hrcne huid huidne
    hem hemne htd
  constructor
  · simp only [createDraft, h2rc, h2uid, h2em, h2td]
  · have hget := getDraftTrail_saveDraftTrail
      { referenceCode := rc, userId := uid, userEmail := em, trailData := td
        status := "draft", isPaid := none, paidAt := none
        createdAt := T, expiresAt := T + ttlMillis, daysRemaining := 7 } drafts
    simpa [hsave] using hget

/-- A second create body for the C10 witness, agreeing with `w4Body` on
the four read fields but differing on every client-supplied
server-owned field. -/
def w10Body : CreateBody :=
  { referenceCode := some "R6", userId := some "u6", userEmail := some "f@x.com"
    trailData := some "t6", status := none, isPaid := some false
    createdAt := some 777, expiresAt := some 1, daysRemaining := some 0 }

/-- C10 witness: the server-owned-fields theorem applied to `w4Body`
and `w10Body` at `T = 0`. -/
theorem c10_server_owned_fields_witness :
    createDraft 0 [] w10Body = createDraft 0 [] w4Body ∧
    getDraftTrail "R6" (createDraft 0 [] w4Body).2
      = some { referenceCode := "R6", userId := "u6", userEmail := "f@x.com"
               trailData := "t6", status := "draft", isPaid := none, paidAt := none
               createdAt := 0, expiresAt := 0 + ttlMillis, daysRemaining := 7 } :=
  c10_server_owned_fields 0 [] w4Body w10Body "R6" "u6" "f@x.com" "t6"
    (by decide) (by decide) (by decide) (by decide) (by decide) (by decide)
    (by decide) (by decide) (by decide) (by decide) (by decide)

/-- The expiry test fails exactly when every present, nonzero expiry
claim is not in the past. -/
theorem expPresentAndPast_eq_false_iff (exp : Option Int) (now : Int) :
    expPresentAndPast exp now = false ↔ ∀ x, exp = some x → x ≠ 0 → ¬ x < now := by
  cases exp with
  | none => simp [expPresentAndPast]
  | some e =>
    by_cases h0 : e = 0
    · simp [expPresentAndPast, h0]
    · by_cases hlt : e < now
      · simp [expPresentAndPast, h0, hlt]
      · simp [expPresentAndPast, h0, hlt]
        omega

/-- The expiry test succeeds exactly on a present, nonzero expiry claim
that is in the past. -/
theorem expPresentAndPast_eq_true_iff (exp : Option Int) (now : Int) :
    expPresentAndPast exp now = true ↔ ∃ x, exp = some x ∧ x ≠ 0 ∧ x < now := by
  cases exp with
  | none => simp [expPresentAndPast]
  | some e =>
    by_cases h0 : e = 0
    · simp [expPresentAndPast, h0]
    · by_cases hlt : e < now
      · simp [expPresentAndPast, h0, hlt]
      · simp [expPresentAndPast, h0, hlt]

/-- C6: a self-signed token that still decodes into three nonempty
colon-separated fields but whose carried signature differs from the
keyed hash recomputed over its subject and timestamp (as any single-byte
alteration of the issued signature makes it differ) is rejected with
the signature-mismatch reason, not a format error; and an external
token with only two dot-separated segments is rejected by identity
extraction with the not-a-JWT format error. -/
theorem c6_rejection_reasons (hmac : Str → Str → Str) (secret decoded u t s : Str)
    (dp : Str → Option JwtClaims) (now : Int) (tok2 : Str)
    (hsplit : splitOnChar ':' decoded = [u, t, s])
    (hu : u ≠ []) (ht : t ≠ []) (hs : s ≠ [])
    (hmismatch : s ≠ hmac secret (u ++ ':' :: t))
    (h2seg : (splitOnChar '.' tok2).length = 2) :
    verifyToken hmac secret decoded = .signatureInvalid ∧
    extractUserFromToken dp now tok2 = .notAJwt := by
  constructor
  · simp [verifyToken, hsplit, hu, ht, hs, hmismatch]
  · simp [extractUserFromToken, h2seg]

/-- A concrete keyed hash for the C6 witness. -/
def c6Hmac : Str → Str → Str := fun secret data => secret ++ data

/-- A concrete (never consulted) claims decoder for the C6 witness. -/
def c6Dp : Str → Option JwtClaims := fun _ => none

/-- C6 witness: the rejection-reasons theorem applied to the decoded
token text `u:1:x`, whose carried signature `x` differs from the
recomputed hash, and to the two-segment external token `a.b`. -/
theorem c6_rejection_reasons_witness :
    verifyToken c6Hmac ['k'] ['u', ':', '1', ':', 'x'] = .signatureInvalid ∧
    extractUserFromToken c6Dp 0 ['a', '.', 'b'] = .notAJwt :=
  c6_rejection_reasons c6Hmac ['k'] ['u', ':', '1', ':', 'x'] ['u'] ['1'] ['x']
    c6Dp 0 ['a', '.', 'b']
    (by decide) (by decide) (by decide) (by decide) (by decide) (by decide)

/-- Claims decoder for the first C7 failing input: the middle segment
`p` decodes to claims with subject `u`, email `e`, a numeric `iat`, and
an expiry claim that is present and equal to epoch `0`. -/
def c7Decode : Str → Option JwtClaims := fun s =>
  if s == ['p'] then
    some { sub := some ['u'], email := some ['e'], name := none
           iat := some 1, exp := some 0 }
  else none

/-- Claims decoder for the second C7 failing input: subject, email and
a numeric `iat` present, but no expiry claim at all. -/
def c7NoExpDecode : Str → Option JwtClaims := fun s =>
  if s == ['p'] then
    some { sub := some ['u'], email := some ['e'], name := none
           iat := some 1, exp := none }
  else none

/-- C7 counterexample, two failing inputs at `now = 1`: the token
`h.p.s` whose claims carry `exp = 0` is accepted even though its expiry
claim is present and in the past (`0 < 1`), because JavaScript
truthiness skips the check when `exp` is `0`; and the same token whose
claims carry no expiry at all is rejected (the debug logging throws
into the catch block) although the claim as stated accepts it — three
segments, subject and email present, and no expiry claim in the past. -/
theorem c7_expiry_claims_counterexample :
    extractUserFromToken c7Decode 1 ['h', '.', 'p', '.', 's']
      = .valid ['u'] ['e'] none ∧
    c7Decode ['p']
      = some { sub := some ['u'], email := some ['e'], name := none
               iat := some 1, exp := some (0 : Int) } ∧
    (0 : Int) < 1 ∧
    extractUserFromToken c7NoExpDecode 1 ['h', '.', 'p', '.', 's']
      = .extractFailed ∧
    c7NoExpDecode ['p']
      = some { sub := some ['u'], email := some ['e'], name := none
               iat := some 1, exp := none } := by
  decide

/-- C7 (amended): external identity extraction accepts a token iff it
has exactly three dot-separated segments, its middle segment decodes to
structured claims carrying a numeric `iat` and a numeric `exp` (a
missing one makes the debug logging throw, rejecting the token), the
expiry is either zero (skipped by truthiness) or not in the past, and
the subject and email claims are present and nonempty; tokens without
exactly three segments are rejected as not-a-JWT; and the first and
third segments are never inspected, so two tokens sharing a middle
segment extract identically whatever their signatures. -/
theorem c7_external_extraction (dp : Str → Option JwtClaims) (now : Int)
    (token t2 h1 p s1 h2 s2 : Str)
    (hsplit : splitOnChar '.' token = [h1, p, s1])
    (hsplit2 : splitOnChar '.' t2 = [h2, p, s2]) :
    ((extractUserFromToken dp now token).isValid = true ↔
      ∃ c, dp p = some c ∧
        (∃ i, c.iat = some i) ∧
        (∃ x, c.exp = some x ∧ (x ≠ 0 → ¬ x < now)) ∧
        (∃ u, c.sub = some u ∧ u ≠ []) ∧
        (∃ e, c.email = some e ∧ e ≠ [])) ∧
    extractUserFromToken dp now token = extractUserFromToken dp now t2 ∧
    (∀ tok, (splitOnChar '.' tok).length ≠ 3 →
      extractUserFromToken dp now tok = .notAJwt) := by
  refine ⟨?_, ?_, ?_⟩
  · cases hdp : dp p with
    | none =>
      have hred : extractUserFromToken dp now token = .payloadDecodeFailed := by
        simp [extractUserFromToken, hsplit, hdp]
      rw [hred]
      refine iff_of_false (by simp [ExtractResult.isValid]) ?_
      rintro ⟨c2, hdp2, -⟩
      exact Option.noConfusion hdp2
    | some c =>
      have hceq : ∀ c2, some c = some c2 → c2 = c := by
        intro c2 h2
        exact (Option.some.injEq _ _ ▸ h2).symm
      cases hiat : c.iat with
      | none =>
        have hred : extractUserFromToken dp now token = .extractFailed := by
          simp [extractUserFromToken, hsplit, hdp, hiat]
        rw [hred]
        refine iff_of_false (by simp [ExtractResult.isValid]) ?_
        rintro ⟨c2, hdp2, ⟨i2, hi⟩, -⟩
        rw [hceq c2 hdp2, hiat] at hi
        exact Option.noConfusion hi
      | some i =>
        cases hexpopt : c.exp with
        | none =>
          have hred : extractUserFromToken dp now token = .extractFailed := by
            simp [extractUserFromToken, hsplit, hdp, hiat, hexpopt]
          rw [hred]
          refine iff_of_false (by simp [ExtractResult.isValid]) ?_
          rintro ⟨c2, hdp2, -, ⟨x, hx, -⟩, -⟩
          rw [hceq c2 hdp2, hexpopt] at hx
          exact Option.noConfusion hx
        | some e =>
          cases hexp : expPresentAndPast (some e) now with
          | true =>
            have hred : extractUserFromToken dp now token = .tokenExpired := by
              simp [extractUserFromToken, hsplit, hdp, hiat, hexpopt, hexp]
            rw [hred]
            refine iff_of_false (by simp [ExtractResult.isValid]) ?_
            rintro ⟨c2, hdp2, -, ⟨x, hx, himp⟩, -⟩
            obtain ⟨x0, hx0, hx00, hx0lt⟩ :=
              (expPresentAndPast_eq_true_iff (some e) now).mp hexp
            have hc2 := hceq c2 hdp2
            subst hc2
            rw [hexpopt] at hx
            injection hx with hex
            subst hex
            injection hx0 with hex0
            subst hex0
            exact himp hx00 hx0lt
          | false =>
            have hexpcond : e ≠ 0 → ¬ e < now := by
              intro h0
              exact (expPresentAndPast_eq_false_iff (some e) now).mp hexp e rfl h0
            cases hsub : c.sub with
            | none =>
              have hred : extractUserFromToken dp now token = .missingUidOrEmail := by
                simp [extractUserFromToken, hsplit, hdp, hiat, hexpopt, hexp, hsub]
              rw [hred]
              refine iff_of_false (by simp [ExtractResult.isValid]) ?_
              rintro ⟨c2, hdp2, -, -, ⟨u, hu, -⟩, -⟩
              rw [hceq c2 hdp2, hsub] at hu
              exact Option.noConfusion hu
            | some u =>
              cases hemail : c.email with
              | none =>
                have hred : extractUserFromToken dp now token = .missingUidOrEmail := by
                  simp [extractUserFromToken, hsplit, hdp, hiat, hexpopt, hexp,
                    hsub, hemail]
                rw [hred]
                refine iff_of_false (by simp [ExtractResult.isValid]) ?_
                rintro ⟨c2, hdp2, -, -, -, ⟨e2, he2, -⟩⟩
                rw [hceq c2 hdp2, hemail] at he2
                exact Option.noConfusion he2
              | some em =>
                by_cases hue : u = []
                · have hred : extractUserFromToken dp now token = .missingUidOrEmail := by
                    simp [extractUserFromToken, hsplit, hdp, hiat, hexpopt, hexp,
                      hsub, hemail, hue]
                  rw [hred]
                  refine iff_of_false (by simp [ExtractResult.isValid]) ?_
                  rintro ⟨c2, hdp2, -, -, ⟨u2, hu2, hu2ne⟩, -⟩
                  rw [hceq c2 hdp2, hsub] at hu2
                  exact hu2ne ((Option.some.injEq _ _ ▸ hu2).symm ▸ hue)
                · by_cases hee : em = []
                  · have hred : extractUserFromToken dp now token = .missingUidOrEmail := by
                      simp [extractUserFromToken, hsplit, hdp, hiat, hexpopt, hexp,
                        hsub, hemail, hue, hee]
                    rw [hred]
                    refine iff_of_false (by simp [ExtractResult.isValid]) ?_
                    rintro ⟨c2, hdp2, -, -, -, ⟨e2, he2, he2ne⟩⟩
                    rw [hceq c2 hdp2, hemail] at he2
                    exact he2ne ((Option.some.injEq _ _ ▸ he2).symm ▸ hee)
                  · have hred : extractUserFromToken dp now token = .valid u em c.name := by
                      simp [extractUserFromToken, hsplit, hdp, hiat, hexpopt, hexp,
                        hsub, hemail, hue, hee]
                    rw [hred]
                    exact iff_of_true (by simp [ExtractResult.isValid])
                      ⟨c, rfl, ⟨i, hiat⟩, ⟨e, hexpopt, hexpcond⟩,
                        ⟨u, hsub, hue⟩, ⟨em, hemail, hee⟩⟩
  · simp [extractUserFromToken, hsplit, hsplit2]
  · intro tok hlen
    simp [extractUserFromToken, hlen]

/-- Claims decoder for the C7 witness: middle segment `p` carries a
subject, an email, a numeric `iat`, and a future nonzero expiry. -/
def c7wDecode : Str → Option JwtClaims := fun s =>
  if s == ['p'] then
    some { sub := some ['u'], email := some ['e'], name := none
           iat := some 1, exp := some 99 }
  else none

/-- C7 witness: the amended theorem applied to two concrete tokens that
share the middle segment but differ in header and signature segments. -/
theorem c7_external_extraction_witness :
    extractUserFromToken c7wDecode 5 ['a', '.', 'p', '.', 'x']
      = extractUserFromToken c7wDecode 5 ['b', '.', 'p', '.', 'y'] :=
  (c7_external_extraction c7wDecode 5 ['a', '.', 'p', '.', 'x']
    ['b', '.', 'p', '.', 'y'] ['a'] ['p'] ['x'] ['b'] ['y']
    (by decide) (by decide)).2.1

end YS
